import Mathlib

/-!
Verification of the feishu-docx document/Markdown converter core.

This file gives a shallow embedding of the block-tree renderer in
`feishu_docx/core/parsers/document.py` and the Markdown-to-block converter in
`feishu_docx/core/converters/md_to_blocks.py`, and proves/refutes the frozen
claims about them.

String operations are modelled over `List Char` with Python `str` semantics
(`split`, `replace`, `strip`, `startswith`, `urllib.parse.unquote`), because
all separator/pattern arguments used by the source are single characters.
-/

/-! ## Python-semantics string helpers -/

/-- Splits a character list on a separator character, Python `str.split(sep)`
semantics: `charSplit '_' []` is `[[]]`, separators at the ends produce empty
groups. -/
def charSplit (sep : Char) : List Char → List (List Char)
  | [] => [[]]
  | c :: cs =>
    let rest := charSplit sep cs
    if c = sep then [] :: rest
    else
      match rest with
      | [] => [[c]]
      | g :: gs => (c :: g) :: gs

/-- Python `s.split(sep)` for a one-character separator. -/
def pySplit (s : String) (sep : Char) : List String :=
  (charSplit sep s.data).map String.mk

/-- Replaces every occurrence of a character by a replacement string. -/
def charReplace (pat : Char) (repl : List Char) : List Char → List Char
  | [] => []
  | c :: cs => if c = pat then repl ++ charReplace pat repl cs else c :: charReplace pat repl cs

/-- Python `s.replace(pat, repl)` for a one-character pattern. -/
def pyReplace (s : String) (pat : Char) (repl : String) : String :=
  String.mk (charReplace pat repl.data s.data)

/-- ASCII whitespace recognized by Python `str.strip()`. -/
def pyIsSpace (c : Char) : Bool :=
  c = ' ' ∨ c = '\t' ∨ c = '\n' ∨ c = '\r' ∨ c = '\x0b' ∨ c = '\x0c'

/-- Python `s.strip()` (restricted to ASCII whitespace, which is all the
renderer ever produces at string ends). -/
def pyStrip (s : String) : String :=
  String.mk (((s.data.dropWhile pyIsSpace).reverse.dropWhile pyIsSpace).reverse)

/-- Python `s.startswith(pre)`. -/
def pyStartsWith (s pre : String) : Bool :=
  pre.data.isPrefixOf s.data

/-- Python `s.lower()` (ASCII). -/
def pyLower (s : String) : String :=
  String.mk (s.data.map Char.toLower)

/-- String repetition, Python `s * n`. -/
def strRepeat (s : String) (n : Nat) : String :=
  String.join (List.replicate n s)

/-! ## Percent-decoding (model of `urllib.parse.unquote`)

`urllib.parse.unquote` is standard-library code: maximal runs of `%XX`
escapes are decoded as UTF-8 byte sequences with `errors='replace'`; a `%`
not followed by two hex digits is kept verbatim. The replacement handling of
truncated multi-byte sequences approximates CPython (one replacement char
per bad lead byte instead of per maximal subpart); no claim depends on
malformed escape sequences. -/

/-- Hexadecimal digit value of a character. -/
def hexVal (c : Char) : Option Nat :=
  if '0' ≤ c ∧ c ≤ '9' then some (c.toNat - 48)
  else if 'a' ≤ c ∧ c ≤ 'f' then some (c.toNat - 87)
  else if 'A' ≤ c ∧ c ≤ 'F' then some (c.toNat - 55)
  else none

/-- Whether a byte is a UTF-8 continuation byte. -/
def utf8Cont (b : Nat) : Bool := 128 ≤ b ∧ b < 192

/-- Decodes a UTF-8 byte sequence, replacing malformed input with U+FFFD.
Structurally recursive on a fuel argument; every step consumes at least one
byte, so fuel equal to the list length (as supplied by `utf8DecodeReplace`)
never runs out and the `0`-fuel case coincides with the empty-list case. -/
def utf8DecodeReplaceAux : Nat → List Nat → List Char
  | 0, _ => []
  | _ + 1, [] => []
  | fuel + 1, b :: bs =>
    if b < 128 then Char.ofNat b :: utf8DecodeReplaceAux fuel bs
    else if 194 ≤ b ∧ b ≤ 223 then
      match bs with
      | b2 :: bs2 =>
        if utf8Cont b2 then
          Char.ofNat ((b - 192) * 64 + (b2 - 128)) :: utf8DecodeReplaceAux fuel bs2
        else '�' :: utf8DecodeReplaceAux fuel (b2 :: bs2)
      | [] => ['�']
    else if 224 ≤ b ∧ b ≤ 239 then
      match bs with
      | b2 :: b3 :: bs3 =>
        if utf8Cont b2 ∧ utf8Cont b3 then
          let cp := (b - 224) * 4096 + (b2 - 128) * 64 + (b3 - 128)
          if 2048 ≤ cp ∧ ¬(55296 ≤ cp ∧ cp ≤ 57343) then
            Char.ofNat cp :: utf8DecodeReplaceAux fuel bs3
          else '�' :: utf8DecodeReplaceAux fuel (b2 :: b3 :: bs3)
        else '�' :: utf8DecodeReplaceAux fuel (b2 :: b3 :: bs3)
      | [b2] => '�' :: utf8DecodeReplaceAux fuel [b2]
      | [] => ['�']
    else if 240 ≤ b ∧ b ≤ 244 then
      match bs with
      | b2 :: b3 :: b4 :: bs4 =>
        if utf8Cont b2 ∧ utf8Cont b3 ∧ utf8Cont b4 then
          let cp := (b - 240) * 262144 + (b2 - 128) * 4096 + (b3 - 128) * 64 + (b4 - 128)
          if 65536 ≤ cp ∧ cp ≤ 1114111 then Char.ofNat cp :: utf8DecodeReplaceAux fuel bs4
          else '�' :: utf8DecodeReplaceAux fuel (b2 :: b3 :: b4 :: bs4)
        else '�' :: utf8DecodeReplaceAux fuel (b2 :: b3 :: b4 :: bs4)
      | [b2, b3] => '�' :: utf8DecodeReplaceAux fuel [b2, b3]
      | [b2] => '�' :: utf8DecodeReplaceAux fuel [b2]
      | [] => ['�']
    else '�' :: utf8DecodeReplaceAux fuel bs

/-- Decodes a UTF-8 byte sequence with replacement of malformed input. -/
def utf8DecodeReplace (l : List Nat) : List Char :=
  utf8DecodeReplaceAux l.length l

/-- Worker for `pyUnquote`: accumulates the bytes of a maximal `%XX` escape
run, flushing them through the UTF-8 decoder at run boundaries. Fuel-indexed
like `utf8DecodeReplaceAux`; every step consumes at least one character. -/
def pyUnquoteAux : Nat → List Char → List Nat → List Char
  | 0, _, bytes => utf8DecodeReplace bytes
  | _ + 1, [], bytes => utf8DecodeReplace bytes
  | fuel + 1, c :: rest, bytes =>
    if c = '%' then
      match rest with
      | a :: b :: rest2 =>
        match hexVal a, hexVal b with
        | some ha, some hb => pyUnquoteAux fuel rest2 (bytes ++ [ha * 16 + hb])
        | _, _ => utf8DecodeReplace bytes ++ '%' :: pyUnquoteAux fuel (a :: b :: rest2) []
      | [a] => utf8DecodeReplace bytes ++ '%' :: pyUnquoteAux fuel [a] []
      | [] => utf8DecodeReplace bytes ++ ['%']
    else utf8DecodeReplace bytes ++ c :: pyUnquoteAux fuel rest []

/-- Model of `urllib.parse.unquote` (UTF-8, `errors='replace'`). -/
def pyUnquote (s : String) : String :=
  String.mk (pyUnquoteAux s.data.length s.data [])

/-! ## Data model

Modelled from the spec: the typed block/inline models live in
`feishu_docx/schema/models.py` and `feishu_docx/schema/code_style.py`, which
are not part of the provided sources. Their shapes are reconstructed from the
spec's data model (spec.md section 3) and from every attribute access the
parser source performs; block-type numbers come from the constants in
`md_to_blocks.py` plus the parser's heading arithmetic (`level = bt - 2`,
heading types 3..11). -/

/-- Table output mode, `TableMode` in the schema. -/
inductive TableMode where
  | html
  | md
deriving DecidableEq

/-- Hyperlink data carried by a text-run style; the source reads
`style.link.get("url", "")`, so the `url` key itself is optional. -/
structure LinkInfo where
  url : Option String := none

/-- Inline style flags of a text run. -/
structure TextStyle where
  bold : Bool := false
  italic : Bool := false
  strikethrough : Bool := false
  underline : Bool := false
  inline_code : Bool := false
  link : Option LinkInfo := none

/-- A run of styled text. -/
structure TextRun where
  content : String := ""
  text_element_style : Option TextStyle := none

/-- User-mention inline element. -/
structure MentionUser where
  user_id : String := ""

/-- Document-mention inline element. -/
structure MentionDoc where
  token : String := ""

/-- Equation inline element. -/
structure EquationEl where
  content : String := ""

/-- Link-preview inline element. -/
structure LinkPreview where
  url : String := ""

/-- One inline element: exactly one variant field is populated in practice;
the renderer dispatches on the first non-`None` field in source order. -/
structure TextElement where
  text_run : Option TextRun := none
  mention_user : Option MentionUser := none
  mention_doc : Option MentionDoc := none
  equation : Option EquationEl := none
  link_preview : Option LinkPreview := none

/-- Block-payload style: ordered-list sequence, todo done flag, code
language id. -/
structure PayloadStyle where
  sequence : Option String := none
  done : Bool := false
  language : Option Nat := none

/-- Text-bearing block payload. -/
structure TextPayload where
  elements : List TextElement := []
  style : Option PayloadStyle := none

/-- Payload carrying only an asset/collaborator token (image, board, sheet,
bitable). -/
structure TokenData where
  token : String := ""

/-- Payload of a reference block. -/
structure ReferenceBase where
  token : String := ""
  view_id : Option String := none

/-- Per-cell merge metadata of a table, row-major. -/
structure MergeInfo where
  row_span : Nat := 1
  col_span : Nat := 1

/-- Dimensions and merge metadata of a table block. -/
structure TableProperty where
  row_size : Nat := 0
  column_size : Nat := 0
  merge_info : List MergeInfo := []

/-- Table payload; the source also guards against a missing `property`. -/
structure TableData where
  property : Option TableProperty := none

/-- The non-recursive fields of a block. -/
structure BlockData where
  block_id : String := ""
  block_type : Nat := 0
  children : List String := []
  page : Option TextPayload := none
  text : Option TextPayload := none
  heading1 : Option TextPayload := none
  heading2 : Option TextPayload := none
  heading3 : Option TextPayload := none
  heading4 : Option TextPayload := none
  heading5 : Option TextPayload := none
  heading6 : Option TextPayload := none
  heading7 : Option TextPayload := none
  heading8 : Option TextPayload := none
  heading9 : Option TextPayload := none
  bullet : Option TextPayload := none
  ordered : Option TextPayload := none
  todo : Option TextPayload := none
  code : Option TextPayload := none
  quote : Option TextPayload := none
  callout : Option TextPayload := none
  image : Option TokenData := none
  board : Option TokenData := none
  sheet : Option TokenData := none
  bitable : Option TokenData := none
  reference_base : Option ReferenceBase := none
  table : Option TableData := none

/-- A block with its resolved ordered children (`sub_blocks` in the source). -/
inductive FeishuBlock where
  | mk (data : BlockData) (sub_blocks : List FeishuBlock)

/-- The non-recursive fields of a block. -/
def FeishuBlock.data : FeishuBlock → BlockData
  | .mk d _ => d

/-- The resolved ordered children of a block. -/
def FeishuBlock.sub_blocks : FeishuBlock → List FeishuBlock
  | .mk _ s => s

/-- Block-type numbers (`BlockType` in the schema). Values 2-15 and 22 are
fixed by the constants in `md_to_blocks.py`; heading types 3..11 by the
parser's `level = bt - 2` arithmetic; the rest are modelled from the spec's
variant list and only need to be pairwise distinct. -/
def BlockType.page : Nat := 1
def BlockType.text : Nat := 2
def BlockType.heading1 : Nat := 3
def BlockType.heading9 : Nat := 11
def BlockType.bullet : Nat := 12
def BlockType.ordered : Nat := 13
def BlockType.code : Nat := 14
def BlockType.quote : Nat := 15
def BlockType.todo : Nat := 17
def BlockType.bitable : Nat := 18
def BlockType.callout : Nat := 19
def BlockType.divider : Nat := 22
def BlockType.image : Nat := 27
def BlockType.sheet : Nat := 30
def BlockType.table : Nat := 31
def BlockType.quote_container : Nat := 34
def BlockType.board : Nat := 43
def BlockType.reference : Nat := 44

/-- Collaborator interface consumed by the renderer (the network/SDK layer,
out of scope per the spec and modelled as pure functions). -/
structure FeishuSDK where
  get_user_name : String → String → String := fun uid _ => uid
  get_image : String → String → Option String := fun _ _ => none
  get_whiteboard : String → String → Option String := fun _ _ => none
  get_sheet : String → String → String → TableMode → Option String := fun _ _ _ _ => none
  get_bitable : String → String → Option String → String → TableMode → Option String :=
    fun _ _ _ _ _ => none
  base_name : String → String := fun p => p

/-- Parser configuration: the constructor arguments of `DocumentParser`. -/
structure ParserCfg where
  sdk : FeishuSDK := {}
  table_mode : TableMode := TableMode.md
  user_access_token : String := ""
  document_id : String := ""
  assets_dir : Option String := none

/-! ## Inline text rendering (`DocumentParser._render_text_payload`) -/

/-- Renders one inline element, dispatching on the first populated variant
field in source order (`_render_text_payload`'s element loop). -/
def render_text_element (cfg : ParserCfg) (el : TextElement) : String :=
  match el.text_run with
  | some tr =>
    let text := tr.content
    match tr.text_element_style with
    | none => text
    | some style =>
      let text := if style.bold then "**" ++ text ++ "**" else text
      let text := if style.italic then "*" ++ text ++ "*" else text
      let text := if style.strikethrough then "~~" ++ text ++ "~~" else text
      let text := if style.inline_code then "`" ++ text ++ "`" else text
      let text := if style.underline then "<u>" ++ text ++ "</u>" else text
      match style.link with
      | some li => "[" ++ text ++ "](" ++ pyUnquote (li.url.getD "") ++ ")"
      | none => text
  | none =>
    match el.mention_user with
    | some mu => "@" ++ cfg.sdk.get_user_name mu.user_id cfg.user_access_token
    | none =>
      match el.mention_doc with
      | some md => "[" ++ md.token ++ "]"
      | none =>
        match el.equation with
        | some eq => "$" ++ eq.content ++ "$"
        | none =>
          match el.link_preview with
          | some lp => "[" ++ lp.url ++ "]"
          | none => ""

/-- Model of `_render_text_payload`: empty for a missing payload, otherwise
the concatenation of the rendered elements. -/
def render_text_payload (cfg : ParserCfg) : Option TextPayload → String
  | none => ""
  | some p => String.join (p.elements.map (render_text_element cfg))

/-- Modelled from the spec: `CODE_STYLE_MAP` lives in
`feishu_docx/schema/code_style.py`, which is not among the provided sources.
The spec describes it as a fixed language-id-to-name table; the entries here
invert the `LANGUAGE_MAP` of `md_to_blocks.py` (id 1 = plain text). Claims do
not depend on individual entries. -/
def code_style_map : Nat → Option String := fun n =>
  if n = 1 then some "text"
  else if n = 49 then some "python"
  else if n = 22 then some "javascript"
  else if n = 75 then some "typescript"
  else if n = 21 then some "java"
  else if n = 13 then some "go"
  else if n = 56 then some "rust"
  else if n = 5 then some "c"
  else if n = 7 then some "cpp"
  else if n = 8 then some "csharp"
  else if n = 63 then some "shell"
  else if n = 3 then some "bash"
  else if n = 23 then some "json"
  else if n = 81 then some "yaml"
  else if n = 34 then some "markdown"
  else none

/-- Selects the `heading<level>` payload field, modelling the source's
`getattr(block, f"heading{level}", None)`. -/
def heading_field (d : BlockData) : Nat → Option TextPayload
  | 1 => d.heading1
  | 2 => d.heading2
  | 3 => d.heading3
  | 4 => d.heading4
  | 5 => d.heading5
  | 6 => d.heading6
  | 7 => d.heading7
  | 8 => d.heading8
  | 9 => d.heading9
  | _ => none

/-! ## Table grid reconstruction (`DocumentParser._render_table`)

The source's `visited` and `grid_data` matrices are represented as functions
`Nat → Nat → _`; the source only ever reads and writes in-range indices, and
`markVisited` keeps the source's in-bounds guard. Cell contents are passed to
the scan as a pre-rendered list of strings (`cell_texts`); the source renders
a cell's children only when the cursor consumes it, but rendering is pure, so
pre-rendering all cells yields the same grid. -/

/-- State of the row-major table scan: visited matrix, grid of
`(content, row_span, col_span)` origin entries, and the flat cell cursor. -/
structure TState where
  visited : Nat → Nat → Bool
  grid : Nat → Nat → Option (String × Nat × Nat)
  cursor : Nat

/-- Span lookup `merge_infos[r * col_count + c]`, defaulting to 1×1 when the
flat index is out of range. -/
def spanAt (merge_infos : List MergeInfo) (col_count r c : Nat) : Nat × Nat :=
  match merge_infos[r * col_count + c]? with
  | some m => (m.row_span, m.col_span)
  | none => (1, 1)

/-- Marks the in-bounds positions of the span region rooted at `(r, c)` as
visited. -/
def markVisited (v : Nat → Nat → Bool) (r c rs cs row_count col_count : Nat) :
    Nat → Nat → Bool :=
  fun r2 c2 =>
    if r ≤ r2 ∧ r2 < r + rs ∧ c ≤ c2 ∧ c2 < c + cs ∧ r2 < row_count ∧ c2 < col_count then true
    else v r2 c2

/-- The row-major scan of `_render_table`: skips visited positions, and at
each unvisited position records an origin with its span and the next
available cell content (empty once `cell_texts` is exhausted; the cursor only
advances when a cell is consumed). -/
def tableScan (row_count col_count : Nat) (mi : List MergeInfo) (cell_texts : List String) :
    List (Nat × Nat) → TState → TState
  | [], st => st
  | (r, c) :: ps, st =>
    if st.visited r c then tableScan row_count col_count mi cell_texts ps st
    else
      let sp := spanAt mi col_count r c
      let v2 := markVisited st.visited r c sp.1 sp.2 row_count col_count
      let pair :=
        if st.cursor < cell_texts.length then (cell_texts.getD st.cursor "", st.cursor + 1)
        else ("", st.cursor)
      let g2 : Nat → Nat → Option (String × Nat × Nat) := fun r2 c2 =>
        if r2 = r ∧ c2 = c then some (pair.1, sp.1, sp.2) else st.grid r2 c2
      tableScan row_count col_count mi cell_texts ps ⟨v2, g2, pair.2⟩

/-- The row-major enumeration of grid positions scanned by `_render_table`. -/
def rowMajor (row_count col_count : Nat) : List (Nat × Nat) :=
  (List.range row_count).flatMap (fun r => (List.range col_count).map (fun c => (r, c)))

/-- Initial scan state: nothing visited, empty grid, cursor at 0. -/
def initTState : TState :=
  ⟨fun _ _ => false, fun _ _ => none, 0⟩

/-- Runs the full row-major scan from the initial state. -/
def buildGrid (row_count col_count : Nat) (mi : List MergeInfo) (cell_texts : List String) :
    TState :=
  tableScan row_count col_count mi cell_texts (rowMajor row_count col_count) initTState

/-- Escapes cell content for Markdown-mode table output:
`content.replace("|", "\\|").replace("\n", "<br>")`. -/
def md_cell_escape (s : String) : String :=
  pyReplace (pyReplace s '|' "\\|") '\n' "<br>"

/-- Model of `_render_table_markdown`. -/
def render_table_markdown (grid : Nat → Nat → Option (String × Nat × Nat))
    (row_count col_count : Nat) : String :=
  let md_lines := (List.range row_count).foldl (fun acc r =>
    let row_strs := (List.range col_count).map (fun c =>
      match grid r c with
      | some d => md_cell_escape d.1
      | none => " ")
    let acc2 := acc ++ ["| " ++ String.intercalate " | " row_strs ++ " |"]
    if r = 0 then
      acc2 ++ ["| " ++ String.intercalate " | " (List.replicate col_count "---") ++ " |"]
    else acc2) []
  String.intercalate "\n" md_lines

/-- Model of `_render_table_html`. -/
def render_table_html (grid : Nat → Nat → Option (String × Nat × Nat))
    (row_count col_count : Nat) : String :=
  let html := (List.range row_count).foldl (fun acc r =>
    let row_cells := (List.range col_count).foldl (fun acc2 c =>
      match grid r c with
      | some d =>
        let attrs :=
          (if 1 < d.2.1 then " rowspan=\"" ++ toString d.2.1 ++ "\"" else "") ++
          (if 1 < d.2.2 then " colspan=\"" ++ toString d.2.2 ++ "\"" else "")
        acc2 ++ ["    <td" ++ attrs ++ ">" ++ d.1 ++ "</td>"]
      | none => acc2) []
    (acc ++ ["  <tr>"] ++ row_cells) ++ ["  </tr>"]) ["<table>"]
  String.intercalate "\n" (html ++ ["</table>"])

/-- The body of `_render_table` given the already-rendered cell contents:
placeholder for a missing table payload or property, otherwise grid
reconstruction followed by mode dispatch. -/
def render_table_core (mode : TableMode) (table : Option TableData) (cell_texts : List String) :
    String :=
  match table with
  | none => "[空表格]"
  | some t =>
    match t.property with
    | none => "[空表格]"
    | some props =>
      let st := buildGrid props.row_size props.column_size props.merge_info cell_texts
      match mode with
      | TableMode.html => render_table_html st.grid props.row_size props.column_size
      | TableMode.md => render_table_markdown st.grid props.row_size props.column_size

/-! ## Per-block rendering (`DocumentParser._render_block_self`) -/

/-- Model of `_render_block_self`: dispatch on `block_type` in source order.
Python truthiness checks on payload objects / tokens / paths are modelled as
`Option` matches plus emptiness checks where the underlying value is a
string. -/
def render_block_self (cfg : ParserCfg) (b : FeishuBlock) : String :=
  let bt := b.data.block_type
  if bt = BlockType.text then render_text_payload cfg b.data.text
  else if 3 ≤ bt ∧ bt ≤ 11 then
    let level := bt - 2
    strRepeat "#" level ++ " " ++ render_text_payload cfg (heading_field b.data level)
  else if bt = BlockType.bullet then "- " ++ render_text_payload cfg b.data.bullet
  else if bt = BlockType.ordered then
    let seq :=
      match b.data.ordered with
      | some p =>
        match p.style with
        | some st =>
          match st.sequence with
          | some s => if s = "" then "1" else s
          | none => "1"
        | none => "1"
      | none => "1"
    seq ++ ". " ++ render_text_payload cfg b.data.ordered
  else if bt = BlockType.todo then
    let status :=
      match b.data.todo with
      | some p =>
        match p.style with
        | some st => if st.done then "[x]" else "[ ]"
        | none => "[ ]"
      | none => "[ ]"
    "- " ++ status ++ " " ++ render_text_payload cfg b.data.todo
  else if bt = BlockType.code then
    let lang :=
      match b.data.code with
      | some p =>
        match p.style with
        | some st =>
          match st.language with
          | some lid => if lid = 0 then "text" else (code_style_map lid).getD "text"
          | none => "text"
        | none => "text"
      | none => "text"
    "```" ++ lang ++ "\n" ++ render_text_payload cfg b.data.code ++ "\n```"
  else if bt = BlockType.quote then "> " ++ render_text_payload cfg b.data.quote
  else if bt = BlockType.callout then "> 💡 **" ++ render_text_payload cfg b.data.callout ++ "**"
  else if bt = BlockType.divider then "---"
  else if bt = BlockType.image then
    match b.data.image with
    | some img =>
      if img.token = "" then ""
      else
        match cfg.sdk.get_image img.token cfg.user_access_token with
        | some fp =>
          if fp = "" then ""
          else
            match cfg.assets_dir with
            | some dir => "![image](" ++ dir ++ "/" ++ cfg.sdk.base_name fp ++ ")"
            | none => "![image](" ++ fp ++ ")"
        | none => ""
    | none => ""
  else if bt = BlockType.board then
    match b.data.board with
    | some bd =>
      if bd.token = "" then ""
      else
        match cfg.sdk.get_whiteboard bd.token cfg.user_access_token with
        | some fp =>
          if fp = "" then ""
          else
            match cfg.assets_dir with
            | some dir => "![whiteboard](" ++ dir ++ "/" ++ cfg.sdk.base_name fp ++ ")"
            | none => "![whiteboard](" ++ fp ++ ")"
        | none => ""
    | none => ""
  else if bt = BlockType.sheet then
    match b.data.sheet with
    | some sh =>
      let token_parts := pySplit sh.token '_'
      if 2 ≤ token_parts.length then
        (cfg.sdk.get_sheet (token_parts.getD 0 "") (token_parts.getD 1 "")
          cfg.user_access_token cfg.table_mode).getD ""
      else ""
    | none => ""
  else if bt = BlockType.bitable then
    match b.data.bitable with
    | some bi =>
      let token_parts := pySplit bi.token '_'
      if 2 ≤ token_parts.length then
        (cfg.sdk.get_bitable (token_parts.getD 0 "") (token_parts.getD 1 "") none
          cfg.user_access_token cfg.table_mode).getD ""
      else ""
    | none => ""
  else if bt = BlockType.reference then
    match b.data.reference_base with
    | some rb =>
      let token_parts := pySplit rb.token '_'
      if token_parts.length = 2 ∧ pyStartsWith (token_parts.getD 1 "") "tb" then
        (cfg.sdk.get_bitable (token_parts.getD 0 "") (token_parts.getD 1 "") rb.view_id
          cfg.user_access_token cfg.table_mode).getD ""
      else ""
    | none => ""
  else ""

/-! ## Recursive rendering (`DocumentParser._recursive_render`) -/

/-- Prefixes every line of a string, modelling
`"\n".join(f"{p}{line}" for line in s.split("\n"))`. -/
def prefixEachLine (p s : String) : String :=
  String.intercalate "\n" ((pySplit s '\n').map (fun line => p ++ line))

mutual

/-- Model of `_recursive_render`: render the node itself, give tables their
dedicated path, then combine the blank-line-joined non-empty child renders
with the variant-specific combinator, and strip the result. -/
def recursive_render (cfg : ParserCfg) : FeishuBlock → String
  | FeishuBlock.mk d subs =>
    let self_content := render_block_self cfg (FeishuBlock.mk d subs)
    if d.block_type = BlockType.table then
      render_table_core cfg.table_mode d.table (cell_block_texts cfg subs)
    else
      let children_content := (render_children cfg subs).filter (fun t => t ≠ "")
      let joined_children := String.intercalate "\n\n" children_content
      let content := self_content
      let content :=
        if joined_children ≠ "" then
          if d.block_type = BlockType.quote ∨ d.block_type = BlockType.quote_container ∨
              d.block_type = BlockType.callout then
            content ++ "\n" ++ prefixEachLine "> " joined_children
          else if d.block_type = BlockType.bullet ∨ d.block_type = BlockType.ordered ∨
              d.block_type = BlockType.todo then
            content ++ "\n" ++ prefixEachLine "    " joined_children
          else content ++ "\n\n" ++ joined_children
        else content
      pyStrip content

/-- Renders a list of sibling blocks in order. -/
def render_children (cfg : ParserCfg) : List FeishuBlock → List String
  | [] => []
  | b :: bs => recursive_render cfg b :: render_children cfg bs

/-- Renders the content of each cell block of a table: the cell's children
joined with `<br>` (the `inner_texts` computation of `_render_table`). -/
def cell_block_texts (cfg : ParserCfg) : List FeishuBlock → List String
  | [] => []
  | FeishuBlock.mk _ csubs :: cbs =>
    String.intercalate "<br>" (render_children cfg csubs) :: cell_block_texts cfg cbs

end

/-- Model of `_render_table` as a standalone method: placeholder for missing
data, otherwise grid reconstruction over the rendered cell blocks. -/
def render_table (cfg : ParserCfg) (b : FeishuBlock) : String :=
  render_table_core cfg.table_mode b.data.table (cell_block_texts cfg b.sub_blocks)

/-! ## Tree building and parsing (`DocumentParser._preprocess` / `parse`) -/

/-- One raw block record as returned by the block-list API: its `block_id`
key and the outcome of `FeishuBlock(**item)` validation. The pydantic decode
itself lives in the schema module (not among the provided sources), so it is
modelled as an `Option` outcome carried by the record; a successfully decoded
record yields a block whose `block_id` field equals the raw key. -/
structure RawRecord where
  block_id : String := ""
  decode : Option FeishuBlock := none

/-- Python-dict insertion semantics for the `blocks_map`: an existing key
keeps its position and gets the new value, a new key is appended. -/
def dict_insert (m : List (String × FeishuBlock)) (k : String) (v : FeishuBlock) :
    List (String × FeishuBlock) :=
  if m.any (fun p => p.1 = k) then m.map (fun p => if p.1 = k then (k, v) else p)
  else m ++ [(k, v)]

/-- Builds `blocks_map` in input order, skipping records that failed to
decode (the source warns and continues). -/
def build_blocks_map (raw : List RawRecord) : List (String × FeishuBlock) :=
  raw.foldl (fun m r =>
    match r.decode with
    | some b => dict_insert m b.data.block_id b
    | none => m) []

/-- Model of `blocks_map.get(k)`. -/
def map_lookup (m : List (String × FeishuBlock)) (k : String) : Option FeishuBlock :=
  (m.find? (fun p => p.1 = k)).map (fun p => p.2)

/-- Root selection of `_preprocess`: the first block of variant `page` in map
order, else — when the raw list is non-empty — the map entry keyed by the
first raw record's `block_id` (which is `none` when that record failed to
decode). -/
def root_of (raw : List RawRecord) : Option FeishuBlock :=
  let m := build_blocks_map raw
  match m.find? (fun p => p.2.data.block_type = BlockType.page) with
  | some p => some p.2
  | none =>
    match raw with
    | [] => none
    | r0 :: _ => map_lookup m r0.block_id

/-- Child resolution (step 2 of `_preprocess`): replaces `sub_blocks` by the
blocks found for the `children` ids, silently dropping dangling ids, at every
level down to the given depth. The source resolves one level per block but
shares object references, which reaches every level of an acyclic tree;
`parse` supplies a depth that is sufficient for any acyclic input (on cyclic
input the Python original does not terminate, so no behaviour is lost). -/
def resolve_block (m : List (String × FeishuBlock)) : Nat → FeishuBlock → FeishuBlock
  | 0, b => b
  | fuel + 1, b =>
    FeishuBlock.mk b.data ((b.data.children.filterMap (map_lookup m)).map (resolve_block m fuel))

/-- Model of `DocumentParser.parse`: empty string when no root was found,
otherwise the title line rendered from the root's `page` payload followed by
the recursive render of the resolved tree. -/
def parse (cfg : ParserCfg) (raw : List RawRecord) : String :=
  match root_of raw with
  | none => ""
  | some root =>
    let m := build_blocks_map raw
    let resolved := resolve_block m (m.length + 1) root
    "# " ++ render_text_payload cfg resolved.data.page ++ "\n" ++ recursive_render cfg resolved

/-! ## Markdown to blocks (`MarkdownToBlocks` in `md_to_blocks.py`)

The mistune token tree is modelled as a recursive token type whose fields
correspond to the dictionary keys the converter reads, with the converter's
`.get(...)` defaults baked into absent fields. -/

/-- One mistune AST token. -/
inductive MDToken where
  | mk (ttype : String) (ordered : Bool) (level : Nat) (info : String) (url : String)
      (raw : String) (children : List MDToken)

/-- The token's `type` field. -/
def MDToken.ttype : MDToken → String
  | .mk t _ _ _ _ _ _ => t

/-- The token's `attrs.ordered` field (default `False`). -/
def MDToken.ordered : MDToken → Bool
  | .mk _ o _ _ _ _ _ => o

/-- The token's `attrs.level` field (default 1). -/
def MDToken.level : MDToken → Nat
  | .mk _ _ l _ _ _ _ => l

/-- The token's `attrs.info` field (default `""`). -/
def MDToken.info : MDToken → String
  | .mk _ _ _ i _ _ _ => i

/-- The token's `attrs.url` field (default `""`). -/
def MDToken.url : MDToken → String
  | .mk _ _ _ _ u _ _ => u

/-- The token's `raw` field (default `""`). -/
def MDToken.raw : MDToken → String
  | .mk _ _ _ _ _ r _ => r

/-- The token's `children` field (default `[]`). -/
def MDToken.children : MDToken → List MDToken
  | .mk _ _ _ _ _ _ cs => cs

/-- The style dictionary of an emitted `text_run` element. -/
structure OutTextStyle where
  bold : Bool := false
  italic : Bool := false
  strikethrough : Bool := false
  inline_code : Bool := false
  link : Option String := none
deriving DecidableEq

/-- One emitted inline element dictionary
(`{"text_run": {"content": ..., "text_element_style": {...}}}`; a `none`
style models an absent `text_element_style` key). -/
structure OutElement where
  content : String
  style : Option OutTextStyle := none
deriving DecidableEq

/-- One emitted block dictionary: its `block_type` value, the name of its
payload key, the payload's `elements`, and — for code blocks — the
`style.language` id. -/
structure OutBlock where
  block_type : Nat
  payload_key : String
  elements : List OutElement := []
  language : Option Nat := none
deriving DecidableEq

/-- Model of `_extract_text_elements`. -/
def extract_text_elements (children : List MDToken) : List OutElement :=
  children.foldl (fun els child =>
    if child.ttype = "text" then els ++ [{ content := child.raw }]
    else if child.ttype = "codespan" then
      els ++ [{ content := child.raw, style := some { inline_code := true } }]
    else if child.ttype = "strong" then
      els ++ child.children.filterMap (fun sub =>
        if sub.ttype = "text" then
          some { content := sub.raw, style := some { bold := true } }
        else none)
    else if child.ttype = "emphasis" then
      els ++ child.children.filterMap (fun sub =>
        if sub.ttype = "text" then
          some { content := sub.raw, style := some { italic := true } }
        else none)
    else if child.ttype = "strikethrough" then
      els ++ child.children.filterMap (fun sub =>
        if sub.ttype = "text" then
          some { content := sub.raw, style := some { strikethrough := true } }
        else none)
    else if child.ttype = "link" then
      let url := child.url
      let text :=
        match child.children.find? (fun sub => sub.ttype = "text") with
        | some sub => sub.raw
        | none => ""
      els ++ [{ content := if text = "" then url else text, style := some { link := some url } }]
    else els) []

/-- The `heading<level>` payload-key name. -/
def heading_key : Nat → String
  | 1 => "heading1"
  | 2 => "heading2"
  | 3 => "heading3"
  | 4 => "heading4"
  | 5 => "heading5"
  | 6 => "heading6"
  | _ => "heading1"

/-- Model of `_make_heading` (level clamped to 1..6). -/
def make_heading (t : MDToken) : OutBlock :=
  let level := min (max t.level 1) 6
  { block_type := BlockType.heading1 + level - 1
    payload_key := heading_key level
    elements := extract_text_elements t.children }

/-- Model of `_make_paragraph`. -/
def make_paragraph (t : MDToken) : OutBlock :=
  { block_type := BlockType.text
    payload_key := "text"
    elements := extract_text_elements t.children }

/-- Model of `_make_list`: one block per `list_item` child, collecting
elements from the item's immediate `paragraph` children only. -/
def make_list (t : MDToken) : List OutBlock :=
  let block_type := if t.ordered then BlockType.ordered else BlockType.bullet
  let list_key := if t.ordered then "ordered" else "bullet"
  t.children.foldl (fun blocks item =>
    if item.ttype = "list_item" then
      let elements := item.children.foldl (fun els child =>
        if child.ttype = "paragraph" then els ++ extract_text_elements child.children
        else els) []
      blocks ++ [{ block_type := block_type, payload_key := list_key, elements := elements }]
    else blocks) []

/-- The language-name-to-id table `LANGUAGE_MAP`. -/
def language_map : List (String × Nat) :=
  [("python", 49), ("javascript", 22), ("typescript", 75), ("java", 21), ("go", 13),
   ("rust", 56), ("c", 5), ("cpp", 7), ("csharp", 8), ("ruby", 55), ("php", 46),
   ("swift", 68), ("kotlin", 25), ("sql", 64), ("shell", 61), ("bash", 3), ("json", 23),
   ("yaml", 81), ("xml", 79), ("html", 17), ("css", 9), ("markdown", 34)]

/-- Model of `_make_code_block` (unmapped language id 1 = plain text). -/
def make_code_block (t : MDToken) : OutBlock :=
  let lang := pyLower t.info
  let lang_code := ((language_map.find? (fun p => p.1 = lang)).map (fun p => p.2)).getD 1
  { block_type := BlockType.code
    payload_key := "code"
    elements := [{ content := t.raw }]
    language := some lang_code }

/-- Model of `_make_quote`: elements collected from `paragraph` children. -/
def make_quote (t : MDToken) : OutBlock :=
  let elements := t.children.foldl (fun els child =>
    if child.ttype = "paragraph" then els ++ extract_text_elements child.children
    else els) []
  { block_type := BlockType.quote, payload_key := "quote", elements := elements }

/-- Model of `_make_divider`. -/
def make_divider : OutBlock :=
  { block_type := BlockType.divider, payload_key := "divider" }

/-- Model of `_convert_token`: a single block, a list of blocks (lists), or
nothing for unsupported token types. -/
def convert_token (t : MDToken) : Option (Sum OutBlock (List OutBlock)) :=
  if t.ttype = "heading" then some (Sum.inl (make_heading t))
  else if t.ttype = "paragraph" then some (Sum.inl (make_paragraph t))
  else if t.ttype = "list" then some (Sum.inr (make_list t))
  else if t.ttype = "block_code" then some (Sum.inl (make_code_block t))
  else if t.ttype = "block_quote" then some (Sum.inl (make_quote t))
  else if t.ttype = "thematic_break" then some (Sum.inl make_divider)
  else none

/-- Model of `convert`'s token loop (the source's `if block:` truthiness
check only skips empty lists, which extend the result by nothing anyway). -/
def convert_tokens (tokens : List MDToken) : List OutBlock :=
  tokens.foldl (fun blocks t =>
    match convert_token t with
    | none => blocks
    | some (Sum.inl b) => blocks ++ [b]
    | some (Sum.inr bs) => blocks ++ bs) []

/-! ## Concrete fixtures shared by the claim theorems -/

/-- A plain text-run inline element. -/
def elT (s : String) : TextElement :=
  { text_run := some { content := s } }

/-- A configuration whose collaborators all return their defaults. -/
def cfgStub : ParserCfg := {}

/-- A bullet block with text `x` and no children. -/
def exBullet : FeishuBlock :=
  FeishuBlock.mk { block_type := BlockType.bullet, bullet := some { elements := [elT "x"] } } []

/-- A quote block with no own text whose sole child is `exBullet`. -/
def exQuote : FeishuBlock :=
  FeishuBlock.mk { block_type := BlockType.quote } [exBullet]

/-- A quote-container block whose sole child is `exBullet`. -/
def exQuoteContainer : FeishuBlock :=
  FeishuBlock.mk { block_type := BlockType.quote_container } [exBullet]

/-- A level-7 heading block (`block_type = 9`) with text `t`. -/
def exHeading7 : FeishuBlock :=
  FeishuBlock.mk { block_type := 9, heading7 := some { elements := [elT "t"] } } []

/-- A level-2 heading block (`block_type = 4`) with text `Hello`. -/
def exHeading2 : FeishuBlock :=
  FeishuBlock.mk { block_type := 4, heading2 := some { elements := [elT "Hello"] } } []

/-! ## C9: missing table data renders the placeholder -/

/-- C9: a table block whose `table` field or `table.property` field is
missing renders as the literal placeholder `[空表格]`, which is not the empty
string, so such a block always contributes visible text. -/
theorem empty_table_placeholder (cfg : ParserCfg) (b : FeishuBlock)
    (h : b.data.table = none ∨ ∃ t, b.data.table = some t ∧ t.property = none) :
    render_table cfg b = "[空表格]" ∧ ("[空表格]" : String) ≠ "" := by
  refine ⟨?_, by decide⟩
  rcases h with h | ⟨t, ht, hp⟩
  · simp [render_table, render_table_core, h]
  · simp [render_table, render_table_core, ht, hp]

/-- Witness for C9 at a concrete block with no `table` payload. -/
theorem empty_table_placeholder_witness :
    render_table cfgStub (FeishuBlock.mk {} []) = "[空表格]" ∧ ("[空表格]" : String) ≠ "" :=
  empty_table_placeholder cfgStub (FeishuBlock.mk {} []) (Or.inl rfl)

/-! ## C3: heading markers are not capped at six -/

/-- C3 counterexample: a level-7 heading renders with seven `#` markers, not
the six the claim's `min(L, 6)` cap would give. -/
theorem heading_seven_uncapped_cex :
    render_block_self cfgStub exHeading7 = "####### t" ∧
    render_block_self cfgStub exHeading7 ≠ strRepeat "#" (min 7 6) ++ " t" := by
  exact ⟨by decide, by decide⟩

/-- C3 amended: for every heading level `1 ≤ L ≤ 9` the self text is `#`
repeated exactly `L` times (uncapped), a space, and the rendered heading
payload. -/
theorem heading_render_uncapped (cfg : ParserCfg) (b : FeishuBlock) (L : Nat)
    (h1 : 1 ≤ L) (h9 : L ≤ 9) (hbt : b.data.block_type = L + 2) :
    render_block_self cfg b =
      strRepeat "#" L ++ " " ++ render_text_payload cfg (heading_field b.data L) := by
  interval_cases L <;>
    simp [render_block_self, hbt, BlockType.text, heading_field, strRepeat, String.join]

/-- Witness for C3 amended at the level-2 heading scenario. -/
theorem heading_render_uncapped_witness :
    render_block_self cfgStub exHeading2 =
      strRepeat "#" 2 ++ " " ++ render_text_payload cfgStub (heading_field exHeading2.data 2) :=
  heading_render_uncapped cfgStub exHeading2 2 (by decide) (by decide) rfl

/-! ## C5: quote block containing a bullet child -/

set_option maxHeartbeats 1000000 in
/-- C5 counterexample: a quote block whose sole child is the bullet item `x`
renders as `"> \n> - x"` (its own `"> "` self text on the first line), not as
the claimed single line `"> - x"`. -/
theorem quote_bullet_cex :
    recursive_render cfgStub exQuote ≠ "> - x" ∧
    recursive_render cfgStub exQuote = "> \n> - x" := by
  exact ⟨by decide, by decide⟩

set_option maxHeartbeats 1000000 in
/-- C5 amended: the quote prefix is applied to every line of the child
render, but a quote block keeps its own `"> "` self text on a separate first
line, giving `"> \n> - x"`; the single combined line `"> - x"` is produced by
the quote-container variant, which has no self text. -/
theorem quote_bullet_amended (cfg : ParserCfg) :
    recursive_render cfg exQuote = "> \n> - x" ∧
    recursive_render cfg exQuoteContainer = "> - x" :=
  ⟨rfl, rfl⟩

/-! ## C7: embedded sheet/bitable/reference token splitting -/

/-- An SDK whose tabular-fetch collaborators return a marker string, making
an invocation observable in the output. -/
def sdkProbe : FeishuSDK :=
  { get_sheet := fun _ _ _ _ => some "FETCHED"
    get_bitable := fun _ _ _ _ _ => some "FETCHED" }

/-- A configuration wired to `sdkProbe`. -/
def cfgProbe : ParserCfg := { sdk := sdkProbe }

/-- A sheet block whose token splits into three parts. -/
def exSheet3 : FeishuBlock :=
  FeishuBlock.mk { block_type := BlockType.sheet, sheet := some { token := "a_b_c" } } []

/-- C7 counterexample: a sheet token with three `_`-separated parts cannot be
split into exactly a parent part and a child part, yet the block still
invokes the tabular-fetch collaborator (with the first two parts) and
renders its result instead of the empty string. -/
theorem embedded_token_split_cex :
    (pySplit "a_b_c" '_').length ≠ 2 ∧
    render_block_self cfgProbe exSheet3 = "FETCHED" ∧
    render_block_self cfgProbe exSheet3 ≠ "" := by
  exact ⟨by decide, by decide, by decide⟩

/-- C7 amended: sheet and bitable blocks render empty without consulting the
collaborator exactly when the token splits into fewer than two parts (two or
more parts invoke the collaborator with the first two); a reference block
additionally requires exactly two parts with the second starting with `tb`,
rendering empty otherwise. -/
theorem embedded_token_split_amended (cfg : ParserCfg) (b : FeishuBlock) :
    (∀ sh, b.data.block_type = BlockType.sheet → b.data.sheet = some sh →
      ((pySplit sh.token '_').length < 2 → render_block_self cfg b = "") ∧
      (2 ≤ (pySplit sh.token '_').length → render_block_self cfg b =
        (cfg.sdk.get_sheet ((pySplit sh.token '_').getD 0 "") ((pySplit sh.token '_').getD 1 "")
          cfg.user_access_token cfg.table_mode).getD "")) ∧
    (∀ bi, b.data.block_type = BlockType.bitable → b.data.bitable = some bi →
      ((pySplit bi.token '_').length < 2 → render_block_self cfg b = "") ∧
      (2 ≤ (pySplit bi.token '_').length → render_block_self cfg b =
        (cfg.sdk.get_bitable ((pySplit bi.token '_').getD 0 "") ((pySplit bi.token '_').getD 1 "")
          none cfg.user_access_token cfg.table_mode).getD "")) ∧
    (∀ rb, b.data.block_type = BlockType.reference → b.data.reference_base = some rb →
      ¬((pySplit rb.token '_').length = 2 ∧
          pyStartsWith ((pySplit rb.token '_').getD 1 "") "tb" = true) →
        render_block_self cfg b = "") := by
  refine ⟨fun sh hbt hsh => ⟨fun hlen => ?_, fun hlen => ?_⟩,
    fun bi hbt hbi => ⟨fun hlen => ?_, fun hlen => ?_⟩,
    fun rb hbt hrb hcond => ?_⟩ <;>
    simp_all [render_block_self, BlockType.text, BlockType.bullet, BlockType.ordered,
      BlockType.todo, BlockType.code, BlockType.quote, BlockType.callout, BlockType.divider,
      BlockType.image, BlockType.board, BlockType.sheet, BlockType.bitable, BlockType.reference]

/-- Witness for C7 amended: a sheet token without `_` renders empty even when
the collaborator would return content. -/
theorem embedded_token_split_amended_witness :
    render_block_self cfgProbe
      (FeishuBlock.mk { block_type := BlockType.sheet, sheet := some { token := "abc" } } []) = "" :=
  ((embedded_token_split_amended cfgProbe
      (FeishuBlock.mk { block_type := BlockType.sheet, sheet := some { token := "abc" } } [])).1
    { token := "abc" } rfl rfl).1 (by decide)

/-! ## C10: link URLs are percent-decoded before emission -/

/-- A text run carrying only a link style. -/
def linkRunEl (content url : String) : TextElement :=
  { text_run := some
      { content := content
        text_element_style := some { link := some { url := some url } } } }

/-- C10: a text run carrying a link style is emitted as
`[text](unquote(url))`: the payload renderer applies `pyUnquote` to the URL,
and percent-escapes are decoded (`%20` becomes a space), so the emitted URL
differs from an escaped original. -/
theorem link_url_unquoted :
    (∀ (cfg : ParserCfg) (content url : String),
      render_text_payload cfg (some { elements := [linkRunEl content url] }) =
        "[" ++ content ++ "](" ++ pyUnquote url ++ ")") ∧
    pyUnquote "https://example.com/a%20b" = "https://example.com/a b" ∧
    pyUnquote "https://example.com/a%20b" ≠ "https://example.com/a%20b" := by
  refine ⟨fun cfg content url => ?_, by decide, by decide⟩
  show String.join ["[" ++ content ++ "](" ++ pyUnquote url ++ ")"] = _
  show "" ++ _ = _
  cases content
  rfl

/-! ## C4: root selection and the no-content condition -/

/-- A decodable text block with id `g1`. -/
def exGoodBlock : FeishuBlock :=
  FeishuBlock.mk { block_id := "g1", block_type := BlockType.text } []

/-- A raw list whose first record fails to decode and whose second decodes to
`exGoodBlock` (no page block anywhere). -/
def exRawList : List RawRecord :=
  [{ block_id := "b1" }, { block_id := "g1", decode := some exGoodBlock }]

/-- C4 counterexample: with no page block, the builder looks up the first raw
record's id, not the first successfully decoded record: here the first record
failed to decode, so although `exGoodBlock` is the first successfully decoded
record (and the map is non-empty), the root is `none` and `parse` returns the
empty string. -/
theorem root_fallback_cex :
    root_of exRawList = none ∧
    (exRawList.filterMap RawRecord.decode).head? = some exGoodBlock ∧
    build_blocks_map exRawList = [("g1", exGoodBlock)] ∧
    parse cfgStub exRawList = "" :=
  ⟨rfl, rfl, rfl, rfl⟩

/-- C4 amended: the tree builder prefers a block of variant page as root;
with no page block it falls back to the map entry keyed by the first raw
record's `block_id` (`none` when that record failed to decode or the raw list
is empty); whenever no root results — in particular when the decoded map is
empty — `parse` yields the empty string rather than raising. -/
theorem root_selection_amended (cfg : ParserCfg) (raw : List RawRecord) :
    (build_blocks_map raw = [] → parse cfg raw = "") ∧
    ((∃ p ∈ build_blocks_map raw, p.2.data.block_type = BlockType.page) →
      ∃ b, root_of raw = some b ∧ b.data.block_type = BlockType.page) ∧
    ((∀ p ∈ build_blocks_map raw, p.2.data.block_type ≠ BlockType.page) →
      root_of raw = raw.head?.bind (fun r0 => map_lookup (build_blocks_map raw) r0.block_id)) ∧
    (root_of raw = none → parse cfg raw = "") := by
  have hempty : build_blocks_map raw = [] → root_of raw = none := by
    intro h
    unfold root_of
    rw [h]
    cases raw with
    | nil => rfl
    | cons r0 rest => simp [map_lookup]
  refine ⟨?_, ?_, ?_, ?_⟩
  · intro h
    have := hempty h
    simp [parse, this]
  · rintro ⟨p, hp, hpage⟩
    have hsome : ((build_blocks_map raw).find?
        (fun q => q.2.data.block_type = BlockType.page)).isSome := by
      rw [List.find?_isSome]
      exact ⟨p, hp, by simp [hpage]⟩
    obtain ⟨q, hq⟩ := Option.isSome_iff_exists.1 hsome
    refine ⟨q.2, ?_, ?_⟩
    · unfold root_of
      simp only [hq]
    · have := List.find?_some hq
      simpa using this
  · intro hnone
    have hfind : (build_blocks_map raw).find?
        (fun q => q.2.data.block_type = BlockType.page) = none := by
      rw [List.find?_eq_none]
      intro p hp
      simp [hnone p hp]
    unfold root_of
    simp only [hfind]
    cases raw with
    | nil => rfl
    | cons r0 rest => rfl
  · intro h
    simp [parse, h]

/-- Witness for C4 amended: instantiated at `exRawList` (whose map has no
page block), the fallback equation and the empty-parse conclusion hold. -/
theorem root_selection_amended_witness :
    root_of exRawList =
      exRawList.head?.bind (fun r0 => map_lookup (build_blocks_map exRawList) r0.block_id) ∧
    parse cfgStub exRawList = "" :=
  ⟨(root_selection_amended cfgStub exRawList).2.2.1 (by
      intro p hp
      have hm : build_blocks_map exRawList = [("g1", exGoodBlock)] := rfl
      rw [hm] at hp
      have hpv : p = ("g1", exGoodBlock) := by simpa using hp
      rw [hpv]
      decide),
   (root_selection_amended cfgStub exRawList).2.2.2 rfl⟩

/-! ## C2: Markdown-mode table output shape -/

/-- Folding an append-step function equals appending the flat-mapped list;
used to rewrite the renderers' accumulator loops into their per-row shape. -/
theorem foldl_step_flatMap {α β : Type} (f : List α → β → List α) (g : β → List α)
    (hfg : ∀ a r, f a r = a ++ g r) :
    ∀ (l : List β) (acc : List α), l.foldl f acc = acc ++ l.flatMap g := by
  intro l
  induction l with
  | nil => intro acc; simp
  | cons x xs ih =>
    intro acc
    simp only [List.foldl_cons, List.flatMap_cons, hfg]
    rw [ih, List.append_assoc]

/-- The claim's description of the Markdown table output: per grid row one
pipe row whose origin cells carry escaped content and whose spanned non-origin
positions are a single blank cell, with a `---` separator row directly under
the first row and nowhere else. -/
def md_table_spec (grid : Nat → Nat → Option (String × Nat × Nat))
    (row_count col_count : Nat) : String :=
  String.intercalate "\n" ((List.range row_count).flatMap (fun r =>
    ["| " ++ String.intercalate " | " ((List.range col_count).map (fun c =>
      match grid r c with
      | some d => md_cell_escape d.1
      | none => " ")) ++ " |"] ++
    if r = 0 then
      ["| " ++ String.intercalate " | " (List.replicate col_count "---") ++ " |"]
    else []))

/-- C2: for every grid, the Markdown renderer emits exactly the shape the
spec describes — one pipe row per grid row with `|`/newline escaping of
origin content and blank spanned cells, and the `---` separator row only
under the first row. -/
theorem markdown_table_shape (grid : Nat → Nat → Option (String × Nat × Nat))
    (row_count col_count : Nat) :
    render_table_markdown grid row_count col_count = md_table_spec grid row_count col_count := by
  unfold render_table_markdown md_table_spec
  rw [foldl_step_flatMap _ _ ?_ (List.range row_count) []]
  · rfl
  · intro a r
    by_cases h : r = 0 <;> simp [h, List.append_assoc]

/-! ## C8: Markdown list conversion -/

/-- Folding a conditional single-append equals appending the mapped filter. -/
theorem foldl_filter_map {α β : Type} (p : β → Prop) [DecidablePred p] (f : β → α) :
    ∀ (l : List β) (acc : List α),
      l.foldl (fun a x => if p x then a ++ [f x] else a) acc =
        acc ++ (l.filter (fun x => decide (p x))).map f := by
  intro l
  induction l with
  | nil => intro acc; simp
  | cons x xs ih =>
    intro acc
    by_cases h : p x <;> simp [h, ih, List.append_assoc]

/-- Folding a conditional list-append equals appending the flattened mapped
filter. -/
theorem foldl_filter_flat {α β : Type} (p : β → Prop) [DecidablePred p] (g : β → List α) :
    ∀ (l : List β) (acc : List α),
      l.foldl (fun a x => if p x then a ++ g x else a) acc =
        acc ++ ((l.filter (fun x => decide (p x))).map g).flatten := by
  intro l
  induction l with
  | nil => intro acc; simp
  | cons x xs ih =>
    intro acc
    by_cases h : p x <;> simp [h, ih, List.append_assoc]

/-- The claim's description of list conversion: one block per `list_item`
child, tagged by the list's `ordered` attribute, whose elements come only
from the item's immediate `paragraph` children. -/
def make_list_spec (t : MDToken) : List OutBlock :=
  (t.children.filter (fun item => decide (item.ttype = "list_item"))).map (fun item =>
    { block_type := if t.ordered then BlockType.ordered else BlockType.bullet
      payload_key := if t.ordered then "ordered" else "bullet"
      elements := ((item.children.filter (fun ch => decide (ch.ttype = "paragraph"))).map
        (fun ch => extract_text_elements ch.children)).flatten })

/-- C8: `_make_list` emits exactly one block per `list_item` child (so never
a single block for a whole list), each tagged bullet or ordered by the list's
`ordered` attribute, with elements extracted only from the item's immediate
`paragraph` children; and for a `list` token the top-level converter emits
exactly those blocks. -/
theorem md_list_conversion (t : MDToken) :
    make_list t = make_list_spec t ∧
    (make_list t).length =
      (t.children.filter (fun item => decide (item.ttype = "list_item"))).length ∧
    (t.ttype = "list" → convert_tokens [t] = make_list t) := by
  have hinner : ∀ (item : MDToken),
      item.children.foldl (fun els child =>
        if child.ttype = "paragraph" then els ++ extract_text_elements child.children
        else els) [] =
      ((item.children.filter (fun ch => decide (ch.ttype = "paragraph"))).map
        (fun ch => extract_text_elements ch.children)).flatten := by
    intro item
    have h := foldl_filter_flat (fun ch => ch.ttype = "paragraph")
      (fun ch => extract_text_elements ch.children) item.children []
    simpa using h
  have hmain : make_list t = make_list_spec t := by
    unfold make_list make_list_spec
    simp only [hinner]
    have houter := foldl_filter_map (fun item => item.ttype = "list_item")
      (fun item =>
        ({ block_type := if t.ordered then BlockType.ordered else BlockType.bullet
           payload_key := if t.ordered then "ordered" else "bullet"
           elements := ((item.children.filter (fun ch => decide (ch.ttype = "paragraph"))).map
             (fun ch => extract_text_elements ch.children)).flatten } : OutBlock))
      t.children []
    simpa using houter
  refine ⟨hmain, ?_, ?_⟩
  · rw [hmain]
    simp [make_list_spec]
  · intro hl
    unfold convert_tokens convert_token
    simp [hl]

/-- A list item holding one paragraph with one text child. -/
def exItem (s : String) : MDToken :=
  MDToken.mk "list_item" false 1 "" "" ""
    [MDToken.mk "paragraph" false 1 "" "" "" [MDToken.mk "text" false 1 "" "" s []]]

/-- An unordered list token with two items and one non-item child. -/
def exListTok : MDToken :=
  MDToken.mk "list" false 1 "" "" "" [exItem "a", MDToken.mk "html" false 1 "" "" "" [], exItem "b"]

/-- Witness for C8: at a concrete two-item list the converter emits the
`_make_list` blocks (two of them, one per item). -/
theorem md_list_conversion_witness :
    convert_tokens [exListTok] = make_list exListTok ∧ (make_list exListTok).length = 2 :=
  ⟨(md_list_conversion exListTok).2.2 rfl, by decide⟩

/-! ## C1 and C6: table grid scan invariants

The span region of an origin extends down and to the right, so the row-major
scan can mark a position visited twice (overlapping spans) but never assigns
it as an origin twice; the claims about the final grid are proved through an
invariant carried along the scan. -/

/-- Strict row-major (lexicographic) order on grid positions. -/
def lexLt (p q : Nat × Nat) : Prop :=
  p.1 < q.1 ∨ (p.1 = q.1 ∧ p.2 < q.2)

/-- Position `p` lies in the span region of the origin entry recorded at `q`
in the grid. -/
def covers (g : Nat → Nat → Option (String × Nat × Nat)) (q p : Nat × Nat) : Prop :=
  ∃ s rs cs, g q.1 q.2 = some (s, rs, cs) ∧
    q.1 ≤ p.1 ∧ p.1 < q.1 + rs ∧ q.2 ≤ p.2 ∧ p.2 < q.2 + cs

/-- Scan invariant relative to the list `ps` of positions still to be
scanned: every visited position is covered by some recorded origin, every
in-bounds covered position is visited, every recorded origin precedes all
unscanned positions in row-major order, and a recorded origin is covered only
by itself. -/
structure GoodState (row_count col_count : Nat) (ps : List (Nat × Nat)) (st : TState) : Prop where
  vis_cov : ∀ r c, st.visited r c = true → ∃ q, covers st.grid q (r, c)
  cov_vis : ∀ q r c, covers st.grid q (r, c) → r < row_count → c < col_count →
    st.visited r c = true
  orig_lt : ∀ r c, (st.grid r c).isSome = true → ∀ p ∈ ps, lexLt (r, c) p
  orig_self : ∀ r c q, (st.grid r c).isSome = true → covers st.grid q (r, c) → q = (r, c)

/-- Value-preserving grid extensions preserve `covers`. -/
theorem covers_mono {g g2 : Nat → Nat → Option (String × Nat × Nat)}
    (h : ∀ r c v, g r c = some v → g2 r c = some v) {q p : Nat × Nat}
    (hc : covers g q p) : covers g2 q p := by
  obtain ⟨s, rs, cs, hg, h1, h2, h3, h4⟩ := hc
  exact ⟨s, rs, cs, h q.1 q.2 _ hg, h1, h2, h3, h4⟩

/-- Main scan invariant: from a good state, scanning any in-bounds, sorted
suffix of positions yields a good final state, preserves existing grid
entries, and leaves every scanned position an origin or covered. -/
theorem tableScan_main (row_count col_count : Nat) (mi : List MergeInfo) (cts : List String) :
    ∀ (ps : List (Nat × Nat)) (st : TState),
      ps.Pairwise lexLt →
      (∀ p ∈ ps, p.1 < row_count ∧ p.2 < col_count) →
      GoodState row_count col_count ps st →
      GoodState row_count col_count [] (tableScan row_count col_count mi cts ps st) ∧
      (∀ r c v, st.grid r c = some v →
        (tableScan row_count col_count mi cts ps st).grid r c = some v) ∧
      (∀ p ∈ ps, ((tableScan row_count col_count mi cts ps st).grid p.1 p.2).isSome = true ∨
        ∃ q, covers (tableScan row_count col_count mi cts ps st).grid q p) := by
  intro ps
  induction ps with
  | nil =>
    intro st _ _ hgood
    refine ⟨⟨hgood.vis_cov, hgood.cov_vis, fun r c _ p hp => absurd hp (List.not_mem_nil p),
      hgood.orig_self⟩, fun r c v h => h, fun p hp => absurd hp (List.not_mem_nil p)⟩
  | cons hd ps ih =>
    intro st hpair hrange hgood
    obtain ⟨r, c⟩ := hd
    have hpair2 : ps.Pairwise lexLt := hpair.of_cons
    have hhdlt : ∀ p ∈ ps, lexLt (r, c) p := fun p hp => List.rel_of_pairwise_cons hpair hp
    have hrange2 : ∀ p ∈ ps, p.1 < row_count ∧ p.2 < col_count := by
      intro p hp
      exact hrange p (List.mem_cons_of_mem _ hp)
    have hin : r < row_count ∧ c < col_count := hrange (r, c) (List.mem_cons_self _ _)
    by_cases hv : st.visited r c = true
    · -- skipped: the head was already visited, hence covered
      have hstep : tableScan row_count col_count mi cts ((r, c) :: ps) st =
          tableScan row_count col_count mi cts ps st := by
        simp [tableScan, hv]
      have hgood2 : GoodState row_count col_count ps st :=
        ⟨hgood.vis_cov, hgood.cov_vis,
          fun r2 c2 h p hp => hgood.orig_lt r2 c2 h p (List.mem_cons_of_mem _ hp),
          hgood.orig_self⟩
      obtain ⟨hg, hm, hc⟩ := ih st hpair2 hrange2 hgood2
      rw [hstep]
      refine ⟨hg, hm, ?_⟩
      intro p hp
      rcases List.mem_cons.1 hp with rfl | hp2
      · right
        obtain ⟨q, hq⟩ := hgood.vis_cov r c hv
        exact ⟨q, covers_mono hm hq⟩
      · exact hc p hp2
    · -- new origin at (r, c)
      have hgnone : st.grid r c = none := by
        cases hgr : st.grid r c with
        | none => rfl
        | some v =>
          have := hgood.orig_lt r c (by simp [hgr]) (r, c) (List.mem_cons_self _ _)
          rcases this with h | ⟨_, h⟩ <;> omega
      set sp := spanAt mi col_count r c with hsp
      set v2 := markVisited st.visited r c sp.1 sp.2 row_count col_count with hv2
      set pair :=
        (if st.cursor < cts.length then (cts.getD st.cursor "", st.cursor + 1)
         else ("", st.cursor)) with hpairdef
      set g2 : Nat → Nat → Option (String × Nat × Nat) := fun r2 c2 =>
        if r2 = r ∧ c2 = c then some (pair.1, sp.1, sp.2) else st.grid r2 c2 with hg2
      have hstep : tableScan row_count col_count mi cts ((r, c) :: ps) st =
          tableScan row_count col_count mi cts ps ⟨v2, g2, pair.2⟩ := by
        simp only [tableScan, hv, Bool.false_eq_true, if_false, Bool.not_eq_true]
      have hg2rc : g2 r c = some (pair.1, sp.1, sp.2) := by
        simp [hg2]
      have hg2off : ∀ r2 c2, ¬(r2 = r ∧ c2 = c) → g2 r2 c2 = st.grid r2 c2 := by
        intro r2 c2 h
        simp [hg2, h]
      have hmono12 : ∀ r2 c2 v, st.grid r2 c2 = some v → g2 r2 c2 = some v := by
        intro r2 c2 v h
        by_cases hrc : r2 = r ∧ c2 = c
        · exfalso
          obtain ⟨rfl, rfl⟩ := hrc
          rw [hgnone] at h
          exact Option.noConfusion h
        · rw [hg2off r2 c2 hrc]
          exact h
      have hcov_new : ∀ r2 c2, covers g2 (r, c) (r2, c2) ↔
          (r ≤ r2 ∧ r2 < r + sp.1 ∧ c ≤ c2 ∧ c2 < c + sp.2) := by
        intro r2 c2
        constructor
        · rintro ⟨s, rs, cs, hg, h1, h2, h3, h4⟩
          rw [hg2rc] at hg
          obtain ⟨rfl, rfl, rfl⟩ : s = pair.1 ∧ rs = sp.1 ∧ cs = sp.2 := by
            have h1 := congrArg (fun o => o.map Prod.fst) hg
            have h2 := congrArg (fun o => o.map (fun t => t.2.1)) hg
            have h3 := congrArg (fun o => o.map (fun t => t.2.2)) hg
            simp at h1 h2 h3
            exact ⟨h1.symm, h2.symm, h3.symm⟩
          exact ⟨h1, h2, h3, h4⟩
        · rintro ⟨h1, h2, h3, h4⟩
          exact ⟨pair.1, sp.1, sp.2, hg2rc, h1, h2, h3, h4⟩
      have hcov_old : ∀ q r2 c2, q ≠ (r, c) → (covers g2 q (r2, c2) ↔ covers st.grid q (r2, c2)) := by
        intro q r2 c2 hq
        have hoff : g2 q.1 q.2 = st.grid q.1 q.2 := by
          apply hg2off
          intro hcon
          apply hq
          obtain ⟨h1, h2⟩ := hcon
          exact Prod.ext h1 h2
        constructor
        · rintro ⟨s, rs, cs, hg, hb⟩
          exact ⟨s, rs, cs, hoff ▸ hg, hb⟩
        · rintro ⟨s, rs, cs, hg, hb⟩
          exact ⟨s, rs, cs, hoff ▸ hg, hb⟩
      have hv2true : ∀ r2 c2, v2 r2 c2 = true ↔
          ((r ≤ r2 ∧ r2 < r + sp.1 ∧ c ≤ c2 ∧ c2 < c + sp.2 ∧ r2 < row_count ∧ c2 < col_count) ∨
            st.visited r2 c2 = true) := by
        intro r2 c2
        simp only [hv2, markVisited]
        by_cases h : r ≤ r2 ∧ r2 < r + sp.1 ∧ c ≤ c2 ∧ c2 < c + sp.2 ∧ r2 < row_count ∧ c2 < col_count
        · simp [h]
        · simp [h]
      have hgood2 : GoodState row_count col_count ps ⟨v2, g2, pair.2⟩ := by
        refine ⟨?_, ?_, ?_, ?_⟩
        · -- vis_cov
          intro r2 c2 h
          have h2 : v2 r2 c2 = true := h
          rcases (hv2true r2 c2).1 h2 with ⟨h1, h2, h3, h4, _, _⟩ | hold
          · exact ⟨(r, c), (hcov_new r2 c2).2 ⟨h1, h2, h3, h4⟩⟩
          · obtain ⟨q, hq⟩ := hgood.vis_cov r2 c2 hold
            have hqne : q ≠ (r, c) := by
              intro hcon
              obtain ⟨s, rs, cs, hg, _⟩ := hq
              rw [hcon] at hg
              rw [hgnone] at hg
              exact Option.noConfusion hg
            exact ⟨q, (hcov_old q r2 c2 hqne).2 hq⟩
        · -- cov_vis
          intro q r2 c2 hcov h1 h2
          have hcov2 : covers g2 q (r2, c2) := hcov
          show v2 r2 c2 = true
          by_cases hq : q = (r, c)
          · subst hq
            obtain ⟨ha, hb, hc', hd⟩ := (hcov_new r2 c2).1 hcov2
            exact (hv2true r2 c2).2 (Or.inl ⟨ha, hb, hc', hd, h1, h2⟩)
          · have := hgood.cov_vis q r2 c2 ((hcov_old q r2 c2 hq).1 hcov2) h1 h2
            exact (hv2true r2 c2).2 (Or.inr this)
        · -- orig_lt
          intro r2 c2 h p hp
          have h2 : (g2 r2 c2).isSome = true := h
          by_cases hrc : r2 = r ∧ c2 = c
          · obtain ⟨rfl, rfl⟩ := hrc
            exact hhdlt p hp
          · rw [hg2off r2 c2 hrc] at h2
            exact hgood.orig_lt r2 c2 h2 p (List.mem_cons_of_mem _ hp)
        · -- orig_self
          intro r2 c2 q h hcov
          have h2 : (g2 r2 c2).isSome = true := h
          have hcov2 : covers g2 q (r2, c2) := hcov
          by_cases hrc : r2 = r ∧ c2 = c
          · obtain ⟨rfl, rfl⟩ := hrc
            by_cases hq : q = (r2, c2)
            · exact hq
            · exfalso
              have hcov3 : covers st.grid q (r2, c2) := (hcov_old q r2 c2 hq).1 hcov2
              exact hv (hgood.cov_vis q r2 c2 hcov3 hin.1 hin.2)
          · rw [hg2off r2 c2 hrc] at h2
            by_cases hq : q = (r, c)
            · exfalso
              subst hq
              obtain ⟨ha, _, hc', _⟩ := (hcov_new r2 c2).1 hcov2
              have hlt := hgood.orig_lt r2 c2 h2 (r, c) (List.mem_cons_self _ _)
              rcases hlt with hx | ⟨hx, hy⟩ <;> omega
            · have hcov3 : covers st.grid q (r2, c2) := (hcov_old q r2 c2 hq).1 hcov2
              exact hgood.orig_self r2 c2 q h2 hcov3
      obtain ⟨hg, hm, hc⟩ := ih ⟨v2, g2, pair.2⟩ hpair2 hrange2 hgood2
      rw [hstep]
      refine ⟨hg, ?_, ?_⟩
      · intro r2 c2 v h
        exact hm r2 c2 v (hmono12 r2 c2 v h)
      · intro p hp
        rcases List.mem_cons.1 hp with rfl | hp2
        · left
          have := hm r c _ hg2rc
          simp [this]
        · exact hc p hp2

/-- Membership in the row-major enumeration is exactly in-boundedness. -/
theorem mem_rowMajor {row_count col_count : Nat} {p : Nat × Nat} :
    p ∈ rowMajor row_count col_count ↔ p.1 < row_count ∧ p.2 < col_count := by
  obtain ⟨a, b⟩ := p
  simp only [rowMajor, List.mem_flatMap, List.mem_map, List.mem_range]
  constructor
  · rintro ⟨r, hr, c, hc, h⟩
    injection h with h1 h2
    omega
  · rintro ⟨ha, hb⟩
    exact ⟨a, ha, b, hb, rfl⟩

/-- The row-major enumeration is strictly sorted in `lexLt`. -/
theorem pairwise_rowMajor (row_count col_count : Nat) :
    (rowMajor row_count col_count).Pairwise lexLt := by
  induction row_count with
  | zero => simp [rowMajor]
  | succ n ih =>
    have hsplit : rowMajor (n + 1) col_count =
        rowMajor n col_count ++ (List.range col_count).map (fun c => (n, c)) := by
      simp [rowMajor, List.range_succ]
    rw [hsplit]
    rw [List.pairwise_append]
    refine ⟨ih, ?_, ?_⟩
    · rw [List.pairwise_map]
      exact (List.pairwise_lt_range col_count).imp (fun h => Or.inr ⟨rfl, h⟩)
    · intro a ha b hb
      have ha2 : a.1 < n := (mem_rowMajor.1 ha).1
      obtain ⟨c, _, rfl⟩ := List.mem_map.1 hb
      exact Or.inl ha2

/-- The initial scan state satisfies the invariant for any pending list. -/
theorem initTState_good (row_count col_count : Nat) (ps : List (Nat × Nat)) :
    GoodState row_count col_count ps initTState := by
  refine ⟨?_, ?_, ?_, ?_⟩
  · intro r c h
    simp [initTState] at h
  · rintro q r c ⟨s, rs, cs, hg, _⟩
    simp [initTState] at hg
  · intro r c h
    simp [initTState] at h
  · intro r c q h
    simp [initTState] at h

/-- C1 amended: in the reconstructed grid, every in-bounds position is an
origin or lies in at least one origin's span region, and an origin position
is covered only by itself (so origins are assigned exactly once and never lie
in another origin's span); full exactly-once coverage of non-origin positions
does not hold for arbitrary merge metadata — see the counterexample. -/
theorem table_grid_coverage_amended (row_count col_count : Nat) (mi : List MergeInfo)
    (cts : List String) (r c : Nat) (hr : r < row_count) (hc : c < col_count) :
    (((buildGrid row_count col_count mi cts).grid r c).isSome = true ∨
      ∃ q, covers (buildGrid row_count col_count mi cts).grid q (r, c)) ∧
    (((buildGrid row_count col_count mi cts).grid r c).isSome = true →
      ∀ q, covers (buildGrid row_count col_count mi cts).grid q (r, c) → q = (r, c)) := by
  have h := tableScan_main row_count col_count mi cts (rowMajor row_count col_count) initTState
    (pairwise_rowMajor row_count col_count)
    (fun p hp => mem_rowMajor.1 hp)
    (initTState_good row_count col_count _)
  refine ⟨?_, ?_⟩
  · exact h.2.2 (r, c) (mem_rowMajor.2 ⟨hr, hc⟩)
  · intro hs q hcov
    exact h.1.orig_self r c q hs hcov

set_option maxHeartbeats 1000000 in
/-- Witness for C1 amended at a concrete 2×2 table with a 2×1 merge: the
origin at `(0, 1)` spans `(1, 1)`, so `(1, 1)` is covered, and the origin at
`(0, 0)` is covered only by itself. -/
theorem table_grid_coverage_amended_witness :
    ((buildGrid 2 2 [⟨1, 1⟩, ⟨2, 1⟩, ⟨1, 1⟩, ⟨1, 1⟩] []).grid 1 1).isSome = true ∨
      ∃ q, covers (buildGrid 2 2 [⟨1, 1⟩, ⟨2, 1⟩, ⟨1, 1⟩, ⟨1, 1⟩] []).grid q (1, 1) :=
  (table_grid_coverage_amended 2 2 [⟨1, 1⟩, ⟨2, 1⟩, ⟨1, 1⟩, ⟨1, 1⟩] [] 1 1
    (by decide) (by decide)).1

set_option maxHeartbeats 1000000 in
/-- C1 counterexample: in the 2×2 table with row-major merge metadata
`[(1,1), (2,1), (1,2), (1,1)]`, position `(1, 1)` is not an origin yet lies
in the span regions of the two distinct origins `(0, 1)` (2×1) and `(1, 0)`
(1×2) — coverage is not exactly-once for arbitrary merge metadata. -/
theorem table_grid_double_coverage_cex :
    covers (buildGrid 2 2 [⟨1, 1⟩, ⟨2, 1⟩, ⟨1, 2⟩, ⟨1, 1⟩] []).grid (0, 1) (1, 1) ∧
    covers (buildGrid 2 2 [⟨1, 1⟩, ⟨2, 1⟩, ⟨1, 2⟩, ⟨1, 1⟩] []).grid (1, 0) (1, 1) ∧
    ((0, 1) : Nat × Nat) ≠ (1, 0) ∧
    (buildGrid 2 2 [⟨1, 1⟩, ⟨2, 1⟩, ⟨1, 2⟩, ⟨1, 1⟩] []).grid 1 1 = none := by
  refine ⟨⟨"", 2, 1, by decide, by decide, by decide, by decide, by decide⟩,
    ⟨"", 1, 2, by decide, by decide, by decide, by decide, by decide⟩,
    by decide, by decide⟩

/-- The scan over a concatenation is the scan over the second part started
from the state after the first part. -/
theorem tableScan_append (row_count col_count : Nat) (mi : List MergeInfo) (cts : List String) :
    ∀ (ps1 ps2 : List (Nat × Nat)) (st : TState),
      tableScan row_count col_count mi cts (ps1 ++ ps2) st =
        tableScan row_count col_count mi cts ps2 (tableScan row_count col_count mi cts ps1 st) := by
  intro ps1
  induction ps1 with
  | nil => intro ps2 st; rfl
  | cons hd ps ih =>
    intro ps2 st
    obtain ⟨r, c⟩ := hd
    by_cases hv : st.visited r c = true
    · simp only [List.cons_append, tableScan, hv, if_true]
      exact ih ps2 st
    · simp only [List.cons_append, tableScan, hv, Bool.false_eq_true, if_false]
      exact ih ps2 _

/-- Once the cell cursor has reached the end of the cell list, every origin
the remaining scan assigns receives the empty content. -/
theorem tableScan_exhausted (row_count col_count : Nat) (mi : List MergeInfo)
    (cts : List String) :
    ∀ (ps : List (Nat × Nat)) (st : TState), cts.length ≤ st.cursor →
      ∀ r c, (tableScan row_count col_count mi cts ps st).grid r c = st.grid r c ∨
        ∃ rs cs, (tableScan row_count col_count mi cts ps st).grid r c = some ("", rs, cs) := by
  intro ps
  induction ps with
  | nil => intro st _ r c; exact Or.inl rfl
  | cons hd ps ih =>
    intro st hcur r c
    obtain ⟨pr, pc⟩ := hd
    by_cases hv : st.visited pr pc = true
    · have hstep : tableScan row_count col_count mi cts ((pr, pc) :: ps) st =
          tableScan row_count col_count mi cts ps st := by
        simp [tableScan, hv]
      rw [hstep]
      exact ih st hcur r c
    · have hnotlt : ¬(st.cursor < cts.length) := by omega
      set sp := spanAt mi col_count pr pc with hsp
      set v2 := markVisited st.visited pr pc sp.1 sp.2 row_count col_count with hv2
      set g2 : Nat → Nat → Option (String × Nat × Nat) := fun r2 c2 =>
        if r2 = pr ∧ c2 = pc then some ("", sp.1, sp.2) else st.grid r2 c2 with hg2
      have hstep : tableScan row_count col_count mi cts ((pr, pc) :: ps) st =
          tableScan row_count col_count mi cts ps ⟨v2, g2, st.cursor⟩ := by
        simp only [tableScan, hv, Bool.false_eq_true, if_false, hnotlt]
      rw [hstep]
      rcases ih ⟨v2, g2, st.cursor⟩ hcur r c with h | h
      · by_cases hrc : r = pr ∧ c = pc
        · right
          refine ⟨sp.1, sp.2, ?_⟩
          rw [h]
          show g2 r c = _
          simp [hg2, hrc]
        · left
          rw [h]
          show g2 r c = _
          simp [hg2, hrc]
      · exact Or.inr h

/-- C6: if the pre-rendered cell list is exhausted at any prefix of the
row-major scan (in particular when there are fewer cell blocks than grid
origins), then every grid entry assigned during the remaining scan — every
origin scanned after exhaustion — carries the empty-string content, and the
grid (hence `_render_table`'s output string) is still fully defined. -/
theorem table_cell_undersupply (row_count col_count : Nat) (mi : List MergeInfo)
    (cts : List String) (ps1 ps2 : List (Nat × Nat))
    (hsplit : rowMajor row_count col_count = ps1 ++ ps2)
    (hmid : cts.length ≤ (tableScan row_count col_count mi cts ps1 initTState).cursor)
    (r c : Nat)
    (hchanged : (buildGrid row_count col_count mi cts).grid r c ≠
      (tableScan row_count col_count mi cts ps1 initTState).grid r c) :
    ∃ rs cs, (buildGrid row_count col_count mi cts).grid r c = some ("", rs, cs) := by
  have heq : buildGrid row_count col_count mi cts =
      tableScan row_count col_count mi cts ps2
        (tableScan row_count col_count mi cts ps1 initTState) := by
    rw [buildGrid, hsplit, tableScan_append]
  rcases tableScan_exhausted row_count col_count mi cts ps2
      (tableScan row_count col_count mi cts ps1 initTState) hmid r c with h | h
  · exfalso
    apply hchanged
    rw [heq]
    exact h
  · rw [heq]
    exact h

set_option maxHeartbeats 1000000 in
/-- Witness for C6: a 1×2 table with a single cell block; after scanning
`(0, 0)` the cell list is exhausted, and the origin assigned at `(0, 1)` gets
empty content. -/
theorem table_cell_undersupply_witness :
    ∃ rs cs, (buildGrid 1 2 [] ["A"]).grid 0 1 = some ("", rs, cs) :=
  table_cell_undersupply 1 2 [] ["A"] [(0, 0)] [(0, 1)] (by decide) (by decide) 0 1 (by decide)
